import Mathlib

/-!
Shallow embedding of the signal-generation and risk-bracket engine of the
nifty-options-app repository (src/app.py, with src/strategies.py a never-invoked
near-duplicate).  Close prices are modelled as rationals; a pandas column is a
`List`; the Python value `None` in a cell is `Option.none`; the `Signal` column
holds the strings `""`, `"Buy"`, `"Sell"` exactly as the code writes them.
-/

namespace NiftyApp

/-- src/app.py line 10: `STOP_LOSS_PCT = 0.01`. -/
def STOP_LOSS_PCT : ℚ := 1 / 100

/-- src/app.py line 11: `TARGET_PCT = 0.02`. -/
def TARGET_PCT : ℚ := 2 / 100

/-- Error outcomes of the `fetch_data` pipeline (src/app.py): `NoData` is the
"No data downloaded" / "empty after cleaning" path (lines 26-28, 39-41, 51-53),
`InsufficientData` the "Insufficient data points" path (lines 57-59), and
`InvalidInput` the error pandas `ewm` raises when the span is below 1. -/
inductive EngineError where
  | NoData
  | InsufficientData
  | InvalidInput
deriving DecidableEq, Repr

/-- Tail of the `adjust=False` exponentially-weighted mean after the seed:
given the previous average `prev`, each close `c` contributes
`α·c + (1-α)·prev`.  This is the recurrence pandas applies for
`ewm(span=k, adjust=False).mean()` (src/app.py lines 62-63). -/
def ewmAccum (α : ℚ) : ℚ → List ℚ → List ℚ
  | _, [] => []
  | prev, c :: cs =>
    let v := α * c + (1 - α) * prev
    v :: ewmAccum α v cs

/-- `Close.ewm(span=k, adjust=False).mean()` as a function of the weighting
factor `α`: the first average is seeded with the first close, later entries
follow the recurrence. -/
def ewm (α : ℚ) : List ℚ → List ℚ
  | [] => []
  | c :: cs => c :: ewmAccum α c cs

/-- The smoother with span `k`: pandas derives `α = 2/(k+1)` from the span and
raises (`InvalidInput`) when the span is below 1 (`span must satisfy: span >= 1`).
Otherwise it returns the `adjust=False` recurrence output. -/
def ewmSpan (k : ℕ) (close : List ℚ) : Except EngineError (List ℚ) :=
  if k < 1 then .error .InvalidInput
  else .ok (ewm (2 / (k + 1)) close)

/-- The dataframe produced by `fetch_data`: the cleaned `Close` column and the
two EMA columns (src/app.py lines 62-63). -/
structure Frame where
  close : List ℚ
  ema5 : List ℚ
  ema20 : List ℚ
deriving DecidableEq, Repr

/-- src/app.py `fetch_data` (lines 17-74) after the download and cleaning
steps, on an already-numeric close series: an empty frame is rejected
(lines 26-28 / 39-41 / 51-53), fewer than 20 rows is rejected as insufficient
(lines 57-59), otherwise the EMA5 and EMA20 columns are computed with
`ewm(span, adjust=False).mean()` (lines 62-63). -/
def fetch_data (close : List ℚ) : Except EngineError Frame :=
  if close.isEmpty then .error .NoData
  else if close.length < 20 then .error .InsufficientData
  else .ok { close := close
             ema5 := ewm (2 / (5 + 1)) close
             ema20 := ewm (2 / (20 + 1)) close }

/-- Pandas `series.shift(1)` read at row `i`: `none` (NaN) at row 0, the
previous entry afterwards. -/
def shift1 (xs : List ℚ) (i : ℕ) : Option ℚ :=
  if i = 0 then none else xs[i - 1]?

/-- Pandas elementwise `<` on cells: a comparison against a missing (NaN)
cell is `False`. -/
def cellLt : Option ℚ → Option ℚ → Bool
  | some a, some b => decide (a < b)
  | _, _ => false

/-- Pandas elementwise `<=` on cells: a comparison against a missing (NaN)
cell is `False`. -/
def cellLe : Option ℚ → Option ℚ → Bool
  | some a, some b => decide (a ≤ b)
  | _, _ => false

/-- Row mask of src/app.py line 84:
`(df["EMA5"] > df["EMA20"]) & (df["EMA5"].shift(1) <= df["EMA20"].shift(1))`. -/
def buyMask (fast slow : List ℚ) (i : ℕ) : Bool :=
  cellLt slow[i]? fast[i]? && cellLe (shift1 fast i) (shift1 slow i)

/-- Row mask of src/app.py line 86:
`(df["EMA5"] < df["EMA20"]) & (df["EMA5"].shift(1) >= df["EMA20"].shift(1))`. -/
def sellMask (fast slow : List ℚ) (i : ℕ) : Bool :=
  cellLt fast[i]? slow[i]? && cellLe (shift1 slow i) (shift1 fast i)

/-- Pandas `df.loc[mask, col] = v` on a string column, rows indexed from a
given offset. -/
def setWhereAux (mask : ℕ → Bool) (v : String) : ℕ → List String → List String
  | _, [] => []
  | i, x :: xs => (if mask i then v else x) :: setWhereAux mask v (i + 1) xs

/-- Pandas `df.loc[mask, col] = v` on a string column. -/
def setWhere (mask : ℕ → Bool) (v : String) (col : List String) : List String :=
  setWhereAux mask v 0 col

/-- src/app.py `generate_signals` body (lines 80-86) as a function of the two
EMA columns and the row count: initialise the `Signal` column to `""`
(line 80), write `"Buy"` where the buy mask holds (line 84), then write
`"Sell"` where the sell mask holds (line 86). -/
def crossSignals (fast slow : List ℚ) (n : ℕ) : List String :=
  setWhere (sellMask fast slow) "Sell"
    (setWhere (buyMask fast slow) "Buy" (List.replicate n ""))

/-- src/app.py `generate_signals` (lines 76-89) applied to a frame that has
both EMA columns. -/
def generate_signals (fr : Frame) : List String :=
  crossSignals fr.ema5 fr.ema20 fr.close.length

/-- The `StopLoss` cell of one row (src/app.py lines 103-108):
`entry·(1-STOP_LOSS_PCT)` on `"Buy"`, `entry·(1+STOP_LOSS_PCT)` on `"Sell"`,
`None` otherwise. -/
def stopLossOf (signal : String) (entry : ℚ) : Option ℚ :=
  if signal = "Buy" then some (entry * (1 - STOP_LOSS_PCT))
  else if signal = "Sell" then some (entry * (1 + STOP_LOSS_PCT))
  else none

/-- The `Target` cell of one row (src/app.py lines 111-116):
`entry·(1+TARGET_PCT)` on `"Buy"`, `entry·(1-TARGET_PCT)` on `"Sell"`,
`None` otherwise. -/
def targetOf (signal : String) (entry : ℚ) : Option ℚ :=
  if signal = "Buy" then some (entry * (1 + TARGET_PCT))
  else if signal = "Sell" then some (entry * (1 - TARGET_PCT))
  else none

/-- The annotated dataframe after `generate_signals` and `apply_sl_target`:
the three input columns plus the four derived columns. -/
structure AnnotatedFrame where
  close : List ℚ
  ema5 : List ℚ
  ema20 : List ℚ
  signal : List String
  entry : List ℚ
  stopLoss : List (Option ℚ)
  target : List (Option ℚ)
deriving DecidableEq, Repr

/-- src/app.py lines 136-137: `df = generate_signals(df); df = apply_sl_target(df)`.
`apply_sl_target` (lines 91-117) sets `Entry` to `Close` (line 97) and derives
`StopLoss` and `Target` row-wise from `Signal` and `Entry`.  The input columns
`Close`, `EMA5`, `EMA20` are carried over unchanged — the code never writes
them. -/
def annotate (fr : Frame) : AnnotatedFrame :=
  let sig := generate_signals fr
  let entry := fr.close
  { close := fr.close
    ema5 := fr.ema5
    ema20 := fr.ema20
    signal := sig
    entry := entry
    stopLoss := (sig.zip entry).map fun p => stopLossOf p.1 p.2
    target := (sig.zip entry).map fun p => targetOf p.1 p.2 }

/-- The whole engine run of src/app.py lines 131-137: fetch and clean the
close series, then annotate with signals and risk brackets. -/
def runPipeline (close : List ℚ) : Except EngineError AnnotatedFrame :=
  (fetch_data close).map annotate

/-! ## Basic lemmas about the embedding -/

theorem ewmAccum_length (α : ℚ) (prev : ℚ) (cs : List ℚ) :
    (ewmAccum α prev cs).length = cs.length := by
  induction cs generalizing prev with
  | nil => rfl
  | cons c cs ih => simp [ewmAccum, ih]

theorem ewm_length (α : ℚ) (close : List ℚ) :
    (ewm α close).length = close.length := by
  cases close with
  | nil => rfl
  | cons c cs => simp [ewm, ewmAccum_length]

theorem setWhereAux_length (mask : ℕ → Bool) (v : String) (j : ℕ) (col : List String) :
    (setWhereAux mask v j col).length = col.length := by
  induction col generalizing j with
  | nil => rfl
  | cons x xs ih => simp [setWhereAux, ih]

theorem setWhere_length (mask : ℕ → Bool) (v : String) (col : List String) :
    (setWhere mask v col).length = col.length :=
  setWhereAux_length mask v 0 col

theorem setWhereAux_getElem? (mask : ℕ → Bool) (v : String) (j : ℕ) (col : List String)
    (i : ℕ) :
    (setWhereAux mask v j col)[i]? = col[i]?.map fun x => if mask (j + i) then v else x := by
  induction col generalizing j i with
  | nil => simp [setWhereAux]
  | cons x xs ih =>
    cases i with
    | zero => simp [setWhereAux]
    | succ i =>
      simp only [setWhereAux, List.getElem?_cons_succ, ih (j + 1) i]
      have : j + 1 + i = j + (i + 1) := by omega
      rw [this]

theorem setWhere_getElem? (mask : ℕ → Bool) (v : String) (col : List String) (i : ℕ) :
    (setWhere mask v col)[i]? = col[i]?.map fun x => if mask i then v else x := by
  have := setWhereAux_getElem? mask v 0 col i
  simpa [setWhere] using this

theorem crossSignals_length (fast slow : List ℚ) (n : ℕ) :
    (crossSignals fast slow n).length = n := by
  simp [crossSignals, setWhere_length]

/-- Pointwise reading of the `Signal` column: the later `.loc` write wins, so
row `i` holds `"Sell"` when the sell mask fires, else `"Buy"` when the buy
mask fires, else the initial `""`. -/
theorem crossSignals_getElem? (fast slow : List ℚ) (n : ℕ) (i : ℕ) (hi : i < n) :
    (crossSignals fast slow n)[i]? =
      some (if sellMask fast slow i then "Sell"
            else if buyMask fast slow i then "Buy" else "") := by
  simp only [crossSignals, setWhere_getElem?, List.getElem?_replicate, hi, if_pos]
  by_cases hs : sellMask fast slow i <;> by_cases hb : buyMask fast slow i <;>
    simp [hs, hb]

theorem shift1_zero (xs : List ℚ) : shift1 xs 0 = none := rfl

theorem shift1_pos (xs : List ℚ) (i : ℕ) (h : i ≠ 0) : shift1 xs i = xs[i - 1]? := by
  simp [shift1, h]

theorem cellLt_none_left (b : Option ℚ) : cellLt none b = false := by
  cases b <;> rfl

theorem cellLt_asymm (a b : Option ℚ) (hab : cellLt a b = true) :
    cellLt b a = false := by
  cases a with
  | none => cases b <;> rfl
  | some x =>
    cases b with
    | none => exact absurd hab (by simp [cellLt])
    | some y =>
      simp only [cellLt, decide_eq_true_eq] at hab ⊢
      exact decide_eq_false (not_lt.mpr (le_of_lt hab))

theorem cellLe_none_left (b : Option ℚ) : cellLe none b = false := by
  cases b <;> rfl

theorem buyMask_zero (fast slow : List ℚ) : buyMask fast slow 0 = false := by
  unfold buyMask
  rw [shift1_zero, cellLe_none_left]
  simp

theorem sellMask_zero (fast slow : List ℚ) : sellMask fast slow 0 = false := by
  unfold sellMask
  rw [shift1_zero, cellLe_none_left]
  simp

theorem buyMask_iff (fast slow : List ℚ) (i : ℕ) (h1 : 1 ≤ i)
    (hf : i < fast.length) (hs : i < slow.length) :
    buyMask fast slow i = true ↔
      slow.getD i 0 < fast.getD i 0 ∧ fast.getD (i - 1) 0 ≤ slow.getD (i - 1) 0 := by
  have hf' : i - 1 < fast.length := by omega
  have hs' : i - 1 < slow.length := by omega
  unfold buyMask
  rw [shift1_pos _ _ (by omega), shift1_pos _ _ (by omega),
      List.getElem?_eq_getElem hf, List.getElem?_eq_getElem hs,
      List.getElem?_eq_getElem hf', List.getElem?_eq_getElem hs',
      List.getD_eq_getElem _ _ hf, List.getD_eq_getElem _ _ hs,
      List.getD_eq_getElem _ _ hf', List.getD_eq_getElem _ _ hs']
  simp [cellLt, cellLe]

theorem sellMask_iff (fast slow : List ℚ) (i : ℕ) (h1 : 1 ≤ i)
    (hf : i < fast.length) (hs : i < slow.length) :
    sellMask fast slow i = true ↔
      fast.getD i 0 < slow.getD i 0 ∧ slow.getD (i - 1) 0 ≤ fast.getD (i - 1) 0 := by
  have hf' : i - 1 < fast.length := by omega
  have hs' : i - 1 < slow.length := by omega
  unfold sellMask
  rw [shift1_pos _ _ (by omega), shift1_pos _ _ (by omega),
      List.getElem?_eq_getElem hf, List.getElem?_eq_getElem hs,
      List.getElem?_eq_getElem hf', List.getElem?_eq_getElem hs',
      List.getD_eq_getElem _ _ hf, List.getD_eq_getElem _ _ hs,
      List.getD_eq_getElem _ _ hf', List.getD_eq_getElem _ _ hs']
  simp [cellLt, cellLe]

/-- The buy mask of line 84 and the sell mask of line 86 can never both fire
on one row: they demand `EMA5 > EMA20` and `EMA5 < EMA20` at once. -/
theorem masks_not_both (fast slow : List ℚ) (i : ℕ) :
    ¬(buyMask fast slow i = true ∧ sellMask fast slow i = true) := by
  rintro ⟨hb, hs⟩
  unfold buyMask at hb
  unfold sellMask at hs
  simp only [Bool.and_eq_true] at hb hs
  have := cellLt_asymm _ _ hb.1
  rw [this] at hs
  exact absurd hs.1 (by simp)

/-- One step of the `adjust=False` recurrence, with the seed handled: entry
`i` of the accumulated tail blends close `i` with the previous average
(`prev` for `i = 0`, the previous tail entry otherwise). -/
theorem ewmAccum_getD (α : ℚ) (cs : List ℚ) (prev : ℚ) (i : ℕ) (h : i < cs.length) :
    (ewmAccum α prev cs).getD i 0 =
      α * cs.getD i 0 +
        (1 - α) * (if i = 0 then prev else (ewmAccum α prev cs).getD (i - 1) 0) := by
  induction cs generalizing prev i with
  | nil => simp at h
  | cons c cs ih =>
    cases i with
    | zero => simp [ewmAccum]
    | succ j =>
      have hj : j < cs.length := by simpa using h
      simp only [ewmAccum, List.getD_cons_succ]
      rw [ih _ j hj]
      cases j with
      | zero => simp
      | succ m => simp [List.getD_cons_succ]

/-- The smoother output is seeded with the first close: `avg[0] = close[0]`. -/
theorem ewm_getD_zero (α : ℚ) (c : ℚ) (cs : List ℚ) :
    (ewm α (c :: cs)).getD 0 0 = c := rfl

/-- The smoother output obeys `avg[i] = α·close[i] + (1-α)·avg[i-1]` at every
index `i ≥ 1` of the series. -/
theorem ewm_recurrence (α : ℚ) (close : List ℚ) (i : ℕ) (h1 : 1 ≤ i)
    (h : i < close.length) :
    (ewm α close).getD i 0 =
      α * close.getD i 0 + (1 - α) * (ewm α close).getD (i - 1) 0 := by
  cases close with
  | nil => simp at h
  | cons c cs =>
    cases i with
    | zero => omega
    | succ j =>
      have hj : j < cs.length := by simpa using h
      show (c :: ewmAccum α c cs).getD (j + 1) 0 = _
      rw [List.getD_cons_succ, ewmAccum_getD α cs c j hj]
      cases j with
      | zero => simp [ewm]
      | succ m =>
        simp only [ewm, Nat.add_sub_cancel, List.getD_cons_succ, List.getD_cons_zero]
        congr 1

/-! ## Claim theorems -/

/-- C2: with the engine constants `STOP_LOSS_PCT = 0.01` and
`TARGET_PCT = 0.02`, every row with positive entry price gets, on a `"Buy"`
signal, `StopLoss = entry·(1-0.01)` and `Target = entry·(1+0.02)`; on a
`"Sell"` signal, `StopLoss = entry·(1+0.01)` and `Target = entry·(1-0.02)`;
in particular entry 100 gives (99, 102) for Buy and (101, 98) for Sell; on no
signal (`""`) both cells are `None`, not zero. -/
theorem risk_bracket_values (entry : ℚ) (hpos : 0 < entry) :
    STOP_LOSS_PCT = 1 / 100 ∧ TARGET_PCT = 2 / 100 ∧
    stopLossOf "Buy" entry = some (entry * (1 - STOP_LOSS_PCT)) ∧
    targetOf "Buy" entry = some (entry * (1 + TARGET_PCT)) ∧
    stopLossOf "Sell" entry = some (entry * (1 + STOP_LOSS_PCT)) ∧
    targetOf "Sell" entry = some (entry * (1 - TARGET_PCT)) ∧
    stopLossOf "Buy" 100 = some 99 ∧ targetOf "Buy" 100 = some 102 ∧
    stopLossOf "Sell" 100 = some 101 ∧ targetOf "Sell" 100 = some 98 ∧
    stopLossOf "" entry = none ∧ targetOf "" entry = none := by
  refine ⟨rfl, rfl, ?_, ?_, ?_, ?_, ?_, ?_, ?_, ?_, ?_, ?_⟩ <;>
    simp [stopLossOf, targetOf, STOP_LOSS_PCT, TARGET_PCT] <;> norm_num

/-- Witness for C2 at the concrete entry price 100. -/
theorem risk_bracket_values_witness : stopLossOf "Buy" 100 = some 99 :=
  (risk_bracket_values 100 (by norm_num)).2.2.2.2.2.2.1

/-- C9: for positive entry, a `"Buy"` row satisfies
`StopLoss < Entry < Target`, a `"Sell"` row satisfies
`Target < Entry < StopLoss`, and any other signal string leaves both cells
`None` — a consequence of `STOP_LOSS_PCT` and `TARGET_PCT` being strictly
positive. -/
theorem bracket_ordering (entry : ℚ) (hpos : 0 < entry) :
    (∀ sl tg, stopLossOf "Buy" entry = some sl → targetOf "Buy" entry = some tg →
      sl < entry ∧ entry < tg) ∧
    (∀ sl tg, stopLossOf "Sell" entry = some sl → targetOf "Sell" entry = some tg →
      tg < entry ∧ entry < sl) ∧
    (∀ s : String, s ≠ "Buy" → s ≠ "Sell" →
      stopLossOf s entry = none ∧ targetOf s entry = none) := by
  refine ⟨?_, ?_, ?_⟩
  · intro sl tg hsl htg
    simp only [stopLossOf, targetOf, if_pos, STOP_LOSS_PCT, TARGET_PCT,
      Option.some.injEq, reduceIte] at hsl htg
    subst hsl; subst htg
    constructor <;> nlinarith
  · intro sl tg hsl htg
    simp only [stopLossOf, targetOf, STOP_LOSS_PCT, TARGET_PCT,
      Option.some.injEq, reduceIte] at hsl htg
    rw [if_neg (by decide : ¬(("Sell" : String) = "Buy"))] at hsl htg
    simp only [Option.some.injEq] at hsl htg
    subst hsl; subst htg
    constructor <;> nlinarith
  · intro s hb hs
    simp [stopLossOf, targetOf, hb, hs]

/-- Witness for C9 at entry 100 and the signal-free string `""`. -/
theorem bracket_ordering_witness :
    stopLossOf "" 100 = none ∧ targetOf "" 100 = none :=
  (bracket_ordering 100 (by norm_num)).2.2 "" (by decide) (by decide)

/-- C6: annotating a frame is a pure derivation: the `Close`, `EMA5`, `EMA20`
columns of the output are the input columns unchanged (the engine never
writes them), `Entry` is a copy of `Close`, and each derived column has
exactly one cell per input row — same ordering, one annotated bar per input
bar. -/
theorem engine_preserves_input (fr : Frame) :
    (annotate fr).close = fr.close ∧
    (annotate fr).ema5 = fr.ema5 ∧
    (annotate fr).ema20 = fr.ema20 ∧
    (annotate fr).entry = fr.close ∧
    (annotate fr).signal.length = fr.close.length ∧
    (annotate fr).stopLoss.length = fr.close.length ∧
    (annotate fr).target.length = fr.close.length := by
  refine ⟨rfl, rfl, rfl, rfl, ?_, ?_, ?_⟩ <;>
    simp [annotate, generate_signals, crossSignals_length, List.length_zip]

/-- C8: the engine is deterministic — two runs on identical close series
produce identical annotated frames. -/
theorem engine_deterministic (close1 close2 : List ℚ) (h : close1 = close2) :
    runPipeline close1 = runPipeline close2 := by
  rw [h]

/-- Witness for C8 on a concrete 20-bar series. -/
theorem engine_deterministic_witness :
    runPipeline (List.replicate 20 100) = runPipeline (List.replicate 20 100) :=
  engine_deterministic (List.replicate 20 100) (List.replicate 20 100) rfl

/-- C10: the buy and sell row masks of lines 84 and 86 can never both fire on
one row, and every cell of the `Signal` column holds exactly one of the three
values `""`, `"Buy"`, `"Sell"`. -/
theorem signal_values_exclusive (fast slow : List ℚ) (i : ℕ) :
    (¬(buyMask fast slow i = true ∧ sellMask fast slow i = true)) ∧
    (∀ (n : ℕ) (s : String), (crossSignals fast slow n)[i]? = some s →
      s = "" ∨ s = "Buy" ∨ s = "Sell") := by
  refine ⟨masks_not_both fast slow i, ?_⟩
  intro n s h
  by_cases hi : i < n
  · rw [crossSignals_getElem? fast slow n i hi] at h
    cases hs : sellMask fast slow i <;> rw [hs] at h
    · cases hb : buyMask fast slow i <;> rw [hb] at h <;> simp at h <;> simp [h]
    · simp at h; simp [h]
  · have hlen : (crossSignals fast slow n).length ≤ i := by
      rw [crossSignals_length]; omega
    rw [List.getElem?_eq_none hlen] at h
    cases h

/-- Witness for C10 on concrete average columns with a buy cross at row 1. -/
theorem signal_values_exclusive_witness :
    ¬(buyMask [1, 2] [1, 1] 1 = true ∧ sellMask [1, 2] [1, 1] 1 = true) ∧
    ("Buy" = "" ∨ "Buy" = "Buy" ∨ "Buy" = "Sell") :=
  ⟨(signal_values_exclusive [1, 2] [1, 1] 1).1,
   (signal_values_exclusive [1, 2] [1, 1] 1).2 2 "Buy" (by decide)⟩

/-- C1: over same-length average columns, row 0 of the `Signal` column is
`""` (no signal), and at every row `i ≥ 1` the column reads `"Buy"` exactly
when `fast[i] > slow[i]` and `fast[i-1] ≤ slow[i-1]`, `"Sell"` exactly when
`fast[i] < slow[i]` and `fast[i-1] ≥ slow[i-1]`, and `""` exactly
otherwise. -/
theorem crossover_signal_characterisation
    (fast slow : List ℚ) (n : ℕ) (hf : fast.length = n) (hs : slow.length = n)
    (i : ℕ) (hi : i < n) :
    (i = 0 → (crossSignals fast slow n)[i]? = some "") ∧
    (1 ≤ i →
      (((crossSignals fast slow n)[i]? = some "Buy") ↔
        (slow.getD i 0 < fast.getD i 0 ∧ fast.getD (i - 1) 0 ≤ slow.getD (i - 1) 0)) ∧
      (((crossSignals fast slow n)[i]? = some "Sell") ↔
        (fast.getD i 0 < slow.getD i 0 ∧ slow.getD (i - 1) 0 ≤ fast.getD (i - 1) 0)) ∧
      (((crossSignals fast slow n)[i]? = some "") ↔
        (¬(slow.getD i 0 < fast.getD i 0 ∧ fast.getD (i - 1) 0 ≤ slow.getD (i - 1) 0) ∧
         ¬(fast.getD i 0 < slow.getD i 0 ∧ slow.getD (i - 1) 0 ≤ fast.getD (i - 1) 0)))) := by
  constructor
  · rintro rfl
    rw [crossSignals_getElem? fast slow n 0 hi, sellMask_zero, buyMask_zero]
    simp
  · intro h1
    have hbi := buyMask_iff fast slow i h1 (by omega) (by omega)
    have hsi := sellMask_iff fast slow i h1 (by omega) (by omega)
    rw [crossSignals_getElem? fast slow n i hi]
    cases hb : buyMask fast slow i <;> cases hsm : sellMask fast slow i
    · have hbc : ¬(slow.getD i 0 < fast.getD i 0 ∧
          fast.getD (i - 1) 0 ≤ slow.getD (i - 1) 0) := fun c => by
        have := hbi.mpr c; rw [hb] at this; exact Bool.false_ne_true this
      have hsc : ¬(fast.getD i 0 < slow.getD i 0 ∧
          slow.getD (i - 1) 0 ≤ fast.getD (i - 1) 0) := fun c => by
        have := hsi.mpr c; rw [hsm] at this; exact Bool.false_ne_true this
      rw [if_neg Bool.false_ne_true, if_neg Bool.false_ne_true]
      exact ⟨iff_of_false (by decide) hbc, iff_of_false (by decide) hsc,
        iff_of_true rfl ⟨hbc, hsc⟩⟩
    · have hsc := hsi.mp hsm
      have hbc : ¬(slow.getD i 0 < fast.getD i 0 ∧
          fast.getD (i - 1) 0 ≤ slow.getD (i - 1) 0) := fun c => by
        have := hbi.mpr c; rw [hb] at this; exact Bool.false_ne_true this
      rw [if_pos rfl]
      exact ⟨iff_of_false (by decide) hbc, iff_of_true rfl hsc,
        iff_of_false (by decide) (fun h => h.2 hsc)⟩
    · have hbc := hbi.mp hb
      have hsc : ¬(fast.getD i 0 < slow.getD i 0 ∧
          slow.getD (i - 1) 0 ≤ fast.getD (i - 1) 0) := fun c => by
        have := hsi.mpr c; rw [hsm] at this; exact Bool.false_ne_true this
      rw [if_neg Bool.false_ne_true, if_pos rfl]
      exact ⟨iff_of_true rfl hbc, iff_of_false (by decide) hsc,
        iff_of_false (by decide) (fun h => h.1 hbc)⟩
    · exact absurd ⟨hb, hsm⟩ (masks_not_both fast slow i)

/-- Witness for C1 on concrete average columns with an upward cross at
row 1. -/
theorem crossover_signal_characterisation_witness :
    (crossSignals [1, 2] [1, 1] 2)[1]? = some "Buy" :=
  ((crossover_signal_characterisation [1, 2] [1, 1] 2 rfl rfl 1
      (by decide)).2 (by decide)).1.mpr (by decide)

/-- C3: for every non-empty close series and span `k ≥ 1` the smoother
produces a same-length output (a defined value at every index, including the
first `k-1`) with `avg[0] = close[0]` and
`avg[i] = α·close[i] + (1-α)·avg[i-1]`, `α = 2/(k+1)`; and the pipeline runs
exactly the two instances `k = 5` and `k = 20` on the close series. -/
theorem ema_recurrence_spec (close : List ℚ) (k : ℕ) (hne : close ≠ [])
    (hk : 1 ≤ k) :
    (∃ avg, ewmSpan k close = .ok avg ∧
      avg.length = close.length ∧
      avg.getD 0 0 = close.getD 0 0 ∧
      (∀ i, 1 ≤ i → i < close.length →
        avg.getD i 0 =
          (2 / (k + 1) : ℚ) * close.getD i 0 +
            (1 - 2 / (k + 1) : ℚ) * avg.getD (i - 1) 0)) ∧
    (∀ fr, fetch_data close = .ok fr →
      ewmSpan 5 close = .ok fr.ema5 ∧ ewmSpan 20 close = .ok fr.ema20) := by
  constructor
  · refine ⟨ewm (2 / (k + 1)) close, ?_, ewm_length _ close, ?_, ?_⟩
    · rw [ewmSpan, if_neg (by omega)]
    · cases close with
      | nil => exact absurd rfl hne
      | cons c cs => rfl
    · intro i h1 hilt
      exact ewm_recurrence (2 / (k + 1)) close i h1 hilt
  · intro fr hfr
    rw [fetch_data] at hfr
    by_cases he : close.isEmpty
    · rw [if_pos he] at hfr; cases hfr
    · rw [if_neg he] at hfr
      by_cases hl : close.length < 20
      · rw [if_pos hl] at hfr; cases hfr
      · rw [if_neg hl] at hfr
        cases hfr
        exact ⟨rfl, rfl⟩

/-- Witness for C3 on a concrete two-bar series with span 5. -/
theorem ema_recurrence_spec_witness :
    ∃ avg, ewmSpan 5 [(1 : ℚ), 2] = .ok avg ∧ avg.length = 2 :=
  match (ema_recurrence_spec [(1 : ℚ), 2] 5 (by decide) (by decide)).1 with
  | ⟨avg, hok, hlen, _, _⟩ => ⟨avg, hok, hlen⟩

/-- C4 counterexample: the claim says that every series with fewer than 2
bars fails with `InsufficientData` and that a series with at least 2 bars
never does; in the code, the empty series fails with the no-data error
instead, and the 2-bar series `[100, 100]` does fail with
`InsufficientData`, since `fetch_data` rejects everything shorter than 20
rows (src/app.py line 57). -/
theorem insufficient_data_threshold_counterexample :
    fetch_data ([] : List ℚ) = .error .NoData ∧
    2 ≤ ([(100 : ℚ), 100]).length ∧
    fetch_data [(100 : ℚ), 100] = .error .InsufficientData := by
  refine ⟨rfl, by decide, ?_⟩
  rw [fetch_data, if_neg (by decide), if_pos (by decide)]

/-- C4 amended: the empty series fails with the no-data error; every
non-empty series with fewer than 20 bars fails with `InsufficientData`
(src/app.py line 57 checks `len(df) < 20`, not `< 2`); every series with at
least 20 bars passes `fetch_data` without an `InsufficientData` failure. -/
theorem insufficient_data_threshold (close : List ℚ) :
    (close = [] → fetch_data close = .error .NoData) ∧
    (close ≠ [] → close.length < 20 →
      fetch_data close = .error .InsufficientData) ∧
    (20 ≤ close.length → ∃ fr, fetch_data close = .ok fr) := by
  refine ⟨?_, ?_, ?_⟩
  · rintro rfl; rfl
  · intro hne hlt
    rw [fetch_data, if_neg (by simpa [List.isEmpty_iff] using hne), if_pos hlt]
  · intro hge
    rw [fetch_data, if_neg (by simp [List.isEmpty_iff]; intro h; simp [h] at hge),
      if_neg (by omega)]
    exact ⟨_, rfl⟩

/-- Witness for C4 (amended) on a 2-bar and a 20-bar series. -/
theorem insufficient_data_threshold_witness :
    fetch_data [(100 : ℚ), 101] = .error .InsufficientData ∧
    ∃ fr, fetch_data (List.replicate 20 (100 : ℚ)) = .ok fr :=
  ⟨(insufficient_data_threshold [(100 : ℚ), 101]).2.1 (by decide) (by decide),
   (insufficient_data_threshold (List.replicate 20 (100 : ℚ))).2.2 (by decide)⟩

/-- C5 counterexample: the claim says a series with at least 2 but fewer
than `k = 20` bars is not rejected by the pipeline; in the code,
`fetch_data` rejects the 2-bar series `[100, 101]` with the insufficient-data
path (src/app.py lines 57-59). -/
theorem short_series_not_rejected_counterexample :
    2 ≤ ([(100 : ℚ), 101]).length ∧ ([(100 : ℚ), 101]).length < 20 ∧
    fetch_data [(100 : ℚ), 101] = .error .InsufficientData := by
  refine ⟨by decide, by decide, ?_⟩
  rw [fetch_data, if_neg (by decide), if_pos (by decide)]

/-- C5 amended: the smoother itself degrades gracefully on a short series
(at least 2 but fewer than 20 bars): for any span `k ≥ 1` it succeeds and
produces an average at every index, and the smoother fails — with
`InvalidInput` — only when the span is below 1; but the pipeline, contrary to
the claim, rejects every such short series with `InsufficientData` before the
smoother runs. -/
theorem smoother_accepts_short_series (close : List ℚ) (k : ℕ)
    (h2 : 2 ≤ close.length) (h20 : close.length < 20) (hk : 1 ≤ k) :
    (∃ avg, ewmSpan k close = .ok avg ∧ avg.length = close.length) ∧
    fetch_data close = .error .InsufficientData ∧
    (∀ (k' : ℕ) (xs : List ℚ) (e : EngineError),
      ewmSpan k' xs = .error e → k' < 1 ∧ e = .InvalidInput) := by
  refine ⟨⟨ewm (2 / (k + 1)) close, ?_, ewm_length _ close⟩, ?_, ?_⟩
  · rw [ewmSpan, if_neg (by omega)]
  · have hne : ¬close.isEmpty := by
      simp [List.isEmpty_iff]; intro h; simp [h] at h2
    rw [fetch_data, if_neg hne, if_pos h20]
  · intro k' xs e h
    rw [ewmSpan] at h
    by_cases hk' : k' < 1
    · rw [if_pos hk'] at h
      cases h
      exact ⟨hk', rfl⟩
    · rw [if_neg hk'] at h
      cases h

/-- Witness for C5 (amended) on the 2-bar series `[100, 101]` with span 5. -/
theorem smoother_accepts_short_series_witness :
    fetch_data [(100 : ℚ), 101] = .error .InsufficientData :=
  (smoother_accepts_short_series [(100 : ℚ), 101] 5 (by decide) (by decide)
    (by decide)).2.1

/-- Reading `"Buy"` from the signal column means the buy mask fired there. -/
theorem buyMask_of_signal (fast slow : List ℚ) (n i : ℕ) (hi : i < n)
    (h : (crossSignals fast slow n)[i]? = some "Buy") :
    buyMask fast slow i = true := by
  rw [crossSignals_getElem? fast slow n i hi] at h
  cases hsm : sellMask fast slow i <;> rw [hsm] at h
  · rw [if_neg Bool.false_ne_true] at h
    cases hb : buyMask fast slow i <;> rw [hb] at h
    rw [if_neg Bool.false_ne_true] at h
    exact absurd h (by decide)
  · rw [if_pos rfl] at h
    exact absurd h (by decide)

/-- Reading `"Sell"` from the signal column means the sell mask fired
there. -/
theorem sellMask_of_signal (fast slow : List ℚ) (n i : ℕ) (hi : i < n)
    (h : (crossSignals fast slow n)[i]? = some "Sell") :
    sellMask fast slow i = true := by
  rw [crossSignals_getElem? fast slow n i hi] at h
  cases hsm : sellMask fast slow i <;> rw [hsm] at h
  rw [if_neg Bool.false_ne_true] at h
  cases hb : buyMask fast slow i <;> rw [hb] at h
  · rw [if_neg Bool.false_ne_true] at h
    exact absurd h (by decide)
  · rw [if_pos rfl] at h
    exact absurd h (by decide)

/-- A row whose masks both stay silent keeps the initial `""`. -/
theorem signal_none_of_masks (fast slow : List ℚ) (n i : ℕ) (hi : i < n)
    (hb : buyMask fast slow i = false) (hsm : sellMask fast slow i = false) :
    (crossSignals fast slow n)[i]? = some "" := by
  rw [crossSignals_getElem? fast slow n i hi, hb, hsm,
    if_neg Bool.false_ne_true, if_neg Bool.false_ne_true]

/-- C7: signals are edge-triggered.  (a) When `fast > slow` holds on a run of
consecutive rows `t..t+len` whose predecessor row satisfied `fast ≤ slow`, a
`"Buy"` fires exactly once over the run, at the transition row `t`, every
later row of the run reading `""`; (b) symmetrically for `"Sell"` on a
sustained `fast < slow` run; (c) two `"Buy"` firings are always separated by a
row where the fast average has crossed back to at-or-below the slow average
(and (d) symmetrically for `"Sell"`), so a signal never re-fires without the
fast average first returning across the slow line. -/
theorem edge_triggered_signals (fast slow : List ℚ) (n : ℕ)
    (hf : fast.length = n) (hs : slow.length = n) :
    (∀ t len, 1 ≤ t → t + len < n →
      fast.getD (t - 1) 0 ≤ slow.getD (t - 1) 0 →
      (∀ j, t ≤ j → j ≤ t + len → slow.getD j 0 < fast.getD j 0) →
      (crossSignals fast slow n)[t]? = some "Buy" ∧
      (∀ j, t < j → j ≤ t + len →
        (crossSignals fast slow n)[j]? = some "")) ∧
    (∀ t len, 1 ≤ t → t + len < n →
      slow.getD (t - 1) 0 ≤ fast.getD (t - 1) 0 →
      (∀ j, t ≤ j → j ≤ t + len → fast.getD j 0 < slow.getD j 0) →
      (crossSignals fast slow n)[t]? = some "Sell" ∧
      (∀ j, t < j → j ≤ t + len →
        (crossSignals fast slow n)[j]? = some "")) ∧
    (∀ i j, i < j → j < n →
      (crossSignals fast slow n)[i]? = some "Buy" →
      (crossSignals fast slow n)[j]? = some "Buy" →
      ∃ m, i < m ∧ m < j ∧ fast.getD m 0 ≤ slow.getD m 0) ∧
    (∀ i j, i < j → j < n →
      (crossSignals fast slow n)[i]? = some "Sell" →
      (crossSignals fast slow n)[j]? = some "Sell" →
      ∃ m, i < m ∧ m < j ∧ slow.getD m 0 ≤ fast.getD m 0) := by
  refine ⟨?_, ?_, ?_, ?_⟩
  · intro t len ht htn hprev hrun
    have htlt : t < n := by omega
    constructor
    · have hb : buyMask fast slow t = true :=
        (buyMask_iff fast slow t ht (by omega) (by omega)).mpr
          ⟨hrun t le_rfl (by omega), hprev⟩
      have hsm : sellMask fast slow t = false := by
        cases hsm : sellMask fast slow t
        · rfl
        · have := (sellMask_iff fast slow t ht (by omega) (by omega)).mp hsm
          exact absurd this.1 (not_lt.mpr (le_of_lt (hrun t le_rfl (by omega))))
      rw [crossSignals_getElem? fast slow n t htlt, hsm, hb,
        if_neg Bool.false_ne_true, if_pos rfl]
    · intro j htj hjr
      have h1j : 1 ≤ j := by omega
      have hjn : j < n := by omega
      have hb : buyMask fast slow j = false := by
        cases hb : buyMask fast slow j
        · rfl
        · have := (buyMask_iff fast slow j h1j (by omega) (by omega)).mp hb
          have hin := hrun (j - 1) (by omega) (by omega)
          exact absurd this.2 (not_le.mpr hin)
      have hsm : sellMask fast slow j = false := by
        cases hsm : sellMask fast slow j
        · rfl
        · have := (sellMask_iff fast slow j h1j (by omega) (by omega)).mp hsm
          have hin := hrun j (by omega) hjr
          exact absurd this.1 (not_lt.mpr (le_of_lt hin))
      exact signal_none_of_masks fast slow n j hjn hb hsm
  · intro t len ht htn hprev hrun
    have htlt : t < n := by omega
    constructor
    · have hsm : sellMask fast slow t = true :=
        (sellMask_iff fast slow t ht (by omega) (by omega)).mpr
          ⟨hrun t le_rfl (by omega), hprev⟩
      rw [crossSignals_getElem? fast slow n t htlt, hsm, if_pos rfl]
    · intro j htj hjr
      have h1j : 1 ≤ j := by omega
      have hjn : j < n := by omega
      have hb : buyMask fast slow j = false := by
        cases hb : buyMask fast slow j
        · rfl
        · have := (buyMask_iff fast slow j h1j (by omega) (by omega)).mp hb
          have hin := hrun j (by omega) hjr
          exact absurd this.1 (not_lt.mpr (le_of_lt hin))
      have hsm : sellMask fast slow j = false := by
        cases hsm : sellMask fast slow j
        · rfl
        · have := (sellMask_iff fast slow j h1j (by omega) (by omega)).mp hsm
          have hin := hrun (j - 1) (by omega) (by omega)
          exact absurd this.2 (not_le.mpr hin)
      exact signal_none_of_masks fast slow n j hjn hb hsm
  · intro i j hij hjn hbi hbj
    have hin : i < n := by omega
    have hbmi := buyMask_of_signal fast slow n i hin hbi
    have hbmj := buyMask_of_signal fast slow n j hjn hbj
    have h1i : 1 ≤ i := by
      rcases Nat.eq_zero_or_pos i with h0 | h1

      · rw [h0, buyMask_zero] at hbmi; exact absurd hbmi (by decide)
      · exact h1
    have h1j : 1 ≤ j := by omega
    have hci := (buyMask_iff fast slow i h1i (by omega) (by omega)).mp hbmi
    have hcj := (buyMask_iff fast slow j h1j (by omega) (by omega)).mp hbmj
    refine ⟨j - 1, ?_, by omega, hcj.2⟩
    rcases Nat.lt_or_ge i (j - 1) with hlt | hge
    · exact hlt
    · exfalso
      have : j - 1 = i := by omega
      rw [this] at hcj
      exact absurd hcj.2 (not_le.mpr hci.1)
  · intro i j hij hjn hsi hsj
    have hin : i < n := by omega
    have hsmi := sellMask_of_signal fast slow n i hin hsi
    have hsmj := sellMask_of_signal fast slow n j hjn hsj
    have h1i : 1 ≤ i := by
      rcases Nat.eq_zero_or_pos i with h0 | h1
      · rw [h0, sellMask_zero] at hsmi; exact absurd hsmi (by decide)
      · exact h1
    have h1j : 1 ≤ j := by omega
    have hci := (sellMask_iff fast slow i h1i (by omega) (by omega)).mp hsmi
    have hcj := (sellMask_iff fast slow j h1j (by omega) (by omega)).mp hsmj
    refine ⟨j - 1, ?_, by omega, hcj.2⟩
    rcases Nat.lt_or_ge i (j - 1) with hlt | hge
    · exact hlt
    · exfalso
      have : j - 1 = i := by omega
      rw [this] at hcj
      exact absurd hcj.2 (not_le.mpr hci.1)

/-- Witness for C7: the concrete columns fast `[1, 2, 2, 1, 0]`,
slow `[1, 1, 1, 1, 1]` carry a buy run at rows 1-2, firing once at row 1. -/
theorem edge_triggered_signals_witness :
    (crossSignals [1, 2, 2, 1, 0] [1, 1, 1, 1, 1] 5)[1]? = some "Buy" :=
  ((edge_triggered_signals [1, 2, 2, 1, 0] [1, 1, 1, 1, 1] 5 rfl rfl).1 1 1
    (by decide) (by decide) (by decide)
    (by intro j hj1 hj2; interval_cases j <;> decide)).1

end NiftyApp
